import Mathlib

/-!
# YoutubeClone: tweet and video controllers

A shallow embedding of `src/controllers/tweet.controller.js` and
`src/controllers/video.controller.js`.

* The document store is a record of three collections held as lists, in
  insertion order.  Store operations (`findById`, `findByIdAndUpdate`,
  `findByIdAndDelete`, `create`) act on the first document carrying the id.
* A handler is a function from the collaborators (`Env`), the store and the
  request to a `Run`: what the handler answered or threw, the store it left
  behind, and the asset-store calls it issued, in order.
* Body and query fields are text or absent (`Option String`), as the form and
  query-string parsers deliver them.  Timestamps kept by the store are not
  part of the model.
-/

namespace YoutubeClone

/-! ## JavaScript string helpers -/

/-- White space and line terminators removed by `String.prototype.trim`. -/
def jsIsWhiteSpace (c : Char) : Bool :=
  c.val == 0x09 || c.val == 0x0A || c.val == 0x0B || c.val == 0x0C || c.val == 0x0D ||
  c.val == 0x20 || c.val == 0xA0 || c.val == 0x1680 ||
  (0x2000 ≤ c.val && c.val ≤ 0x200A) ||
  c.val == 0x2028 || c.val == 0x2029 || c.val == 0x202F || c.val == 0x205F ||
  c.val == 0x3000 || c.val == 0xFEFF

/-- The characters of `s.trim()`. -/
def jsTrimChars (cs : List Char) : List Char :=
  ((cs.dropWhile jsIsWhiteSpace).reverse.dropWhile jsIsWhiteSpace).reverse

/-- The method `String.prototype.trim`. -/
def jsTrim (s : String) : String := String.mk (jsTrimChars s.data)

/-- The test `field?.trim() === ""` on a field that is text or `undefined`:
optional chaining yields `undefined` for an absent field, and `undefined` is
not `""`. -/
def trimIsEmpty : Option String → Bool
  | none => false
  | some s => jsTrim s == ""

/-- Truthiness of a value that is text or `undefined`. -/
def truthy : Option String → Bool
  | none => false
  | some s => s != ""

/-! ## Data model -/

/-- A document of the tweet collection. -/
structure Tweet where
  _id : String
  content : String
  owner : String
  deriving DecidableEq, Repr

/-- A document of the video collection.  `title` and `description` may be
absent from a document. -/
structure Video where
  _id : String
  videoFile : String
  thumbnail : String
  title : Option String
  description : Option String
  duration : Nat
  isPublished : Bool
  owner : String
  deriving DecidableEq, Repr

/-- A document of the user collection. -/
structure User where
  _id : String
  username : String
  fullName : String
  avatar : String
  deriving DecidableEq, Repr

/-- The document store. -/
structure Db where
  tweets : List Tweet
  videos : List Video
  users : List User
  deriving DecidableEq, Repr

/-- What `uploadOnCloudinary` resolves to on success. -/
structure Upload where
  url : String
  duration : Nat
  deriving DecidableEq, Repr

/-- A call made to the asset store. -/
inductive AssetCall
  | delete (publicId : String)
  | upload (localPath : String)
  deriving DecidableEq, Repr

/-- The owner view produced by the listing projection. -/
structure OwnerView where
  username : String
  fullName : String
  avatar : String
  deriving DecidableEq, Repr

/-- A listed video: `_id`, `title`, `description` and the joined owner. -/
structure VideoView where
  _id : String
  title : Option String
  description : Option String
  owner : OwnerView
  deriving DecidableEq, Repr

/-- The paginator's result. -/
structure Page where
  docs : List VideoView
  totalDocs : Nat
  limit : Nat
  page : Nat
  deriving DecidableEq, Repr

/-- The `data` member of an `ApiResponse`. -/
inductive Payload
  | tweet (t : Tweet)
  | video (v : Video)
  | noVideo
  | empty
  | page (p : Page)
  deriving DecidableEq, Repr

/-- How a handler ends: a JSON answer, a thrown `ApiError`, a `TypeError`
raised by the runtime, or an error raised by the store. -/
inductive Outcome
  | json (status : Nat) (data : Payload) (message : String)
  | apiError (statusCode : Nat) (message : String)
  | typeError
  | storeError
  deriving DecidableEq, Repr

/-- A number that `parseInt` returns: `NaN`, negative zero, an integer that a
double holds, or an infinity. -/
inductive JSNumber
  | nan
  | negZero
  | finite (value : Int)
  | infinity (negative : Bool)
  deriving DecidableEq, Repr

/-- One handled request. -/
structure Run where
  outcome : Outcome
  db : Db
  assets : List AssetCall
  deriving DecidableEq, Repr

/-- The collaborators whose code is not part of the two controllers. -/
structure Env where
  /-- The function `isValidObjectId` of the store driver. -/
  isValidObjectId : String → Bool
  /-- The identifier the store gives to a new document, from those in use. -/
  freshId : List String → String
  /-- Schema validation of a new tweet (`models/tweet.model.js`). -/
  tweetSchema : Tweet → Bool
  /-- Schema validation of a new video (`models/video.model.js`). -/
  videoSchema : Video → Bool
  /-- Schema default of `isPublished`. -/
  isPublishedDefault : Bool
  /-- The function `getPublicIdFromUrl` of `utils/cloudinary.js`. -/
  getPublicIdFromUrl : String → String
  /-- The function `deleteOnCloudinary`: `none` is a null answer, `some r` an
  answer whose `result` member is `r`. -/
  deleteOnCloudinary : String → Option String
  /-- The function `uploadOnCloudinary`: `none` is a null answer. -/
  uploadOnCloudinary : String → Option Upload
  /-- The store's regular-expression engine: the pattern and the options
  give a test on text, or nothing when the pattern does not compile. -/
  regex : String → String → Option (String → Bool)
  /-- The store's `$match` equality of a stored owner with a query value. -/
  ownerEq : String → String → Bool
  /-- The store's `$sort` stage for one field name and one direction. -/
  sortStage : String → Int → List Video → List Video
  /-- What the paginator answers to a page or a page size that is not a
  positive integer. -/
  paginateOther : List VideoView → JSNumber → JSNumber → Outcome

/-! ## Store operations -/

/-- The query `Tweet.findById`. -/
def Tweet.findById (db : Db) (id : String) : Option Tweet :=
  db.tweets.find? (fun t => t._id == id)

/-- Replace the first element satisfying `p` by its image under `f`. -/
def updateFirst {α : Type} (p : α → Bool) (f : α → α) : List α → List α
  | [] => []
  | x :: xs => if p x then f x :: xs else x :: updateFirst p f xs

/-- Remove the first element satisfying `p`. -/
def removeFirst {α : Type} (p : α → Bool) : List α → List α
  | [] => []
  | x :: xs => if p x then xs else x :: removeFirst p xs

/-- The update `{ $set: { content } }` on a tweet: an `undefined` value is
dropped from the update by the driver. -/
def Tweet.set (content : Option String) (t : Tweet) : Tweet :=
  match content with
  | none => t
  | some c => { t with content := c }

/-- The call `Tweet.findByIdAndUpdate(id, { $set: { content } }, { new: true })`:
the updated document, if any, and the store. -/
def Tweet.findByIdAndUpdate (db : Db) (id : String) (content : Option String) :
    Option Tweet × Db :=
  match db.tweets.find? (fun t => t._id == id) with
  | none => (none, db)
  | some t =>
    (some (Tweet.set content t),
     { db with tweets := updateFirst (fun t => t._id == id) (Tweet.set content) db.tweets })

/-- The call `Tweet.findByIdAndDelete(id)`. -/
def Tweet.findByIdAndDelete (db : Db) (id : String) : Option Tweet × Db :=
  match db.tweets.find? (fun t => t._id == id) with
  | none => (none, db)
  | some t => (some t, { db with tweets := removeFirst (fun t => t._id == id) db.tweets })

/-- The call `Tweet.create({ content, owner })`: the new document and the
store, or nothing when the schema rejects the document. -/
def Tweet.create (env : Env) (db : Db) (content owner : String) : Option (Tweet × Db) :=
  let t : Tweet := { _id := env.freshId (db.tweets.map (·._id)), content := content, owner := owner }
  if env.tweetSchema t then some (t, { db with tweets := db.tweets ++ [t] }) else none

/-! ## tweet.controller.js -/

/-- The helper `findTweetById`: the tweet, or the error it throws. -/
def findTweetById (db : Db) (tweetId : String) : Except Outcome Tweet :=
  match Tweet.findById db tweetId with
  | none => .error (.apiError 404 "Tweet not found")
  | some tweet => .ok tweet

/-- The helper `validateCurrentUserAgainstOwner`: `none` when it returns,
the error when it throws. -/
def validateCurrentUserAgainstOwner (db : Db) (currentUser tweetId message : String) :
    Option Outcome :=
  match findTweetById db tweetId with
  | .error e => some e
  | .ok tweet => if tweet.owner != currentUser then some (.apiError 403 message) else none

/-- A request to `createTweet`: `req.body.content` and `req.user._id`. -/
structure CreateTweetReq where
  content : Option String
  user : String

/-- The handler `createTweet`. -/
def createTweet (env : Env) (db : Db) (req : CreateTweetReq) : Run :=
  let owner := req.user
  if !truthy req.content then ⟨.apiError 400 "Content is required", db, []⟩
  else if !env.isValidObjectId owner then ⟨.apiError 400 "Video Id is not valid", db, []⟩
  else
    match Tweet.create env db (req.content.getD "") owner with
    | none => ⟨.storeError, db, []⟩
    -- a created document is an object, so the `!tweet` branch is never taken
    | some (tweet, db') => ⟨.json 200 (.tweet tweet) "Tweet created successfully", db', []⟩

/-- A request to `updateTweet`: `req.params.tweetId`, `req.body.content` and
`req.user._id`. -/
structure UpdateTweetReq where
  tweetId : String
  content : Option String
  user : String

/-- The handler `updateTweet`. -/
def updateTweet (env : Env) (db : Db) (req : UpdateTweetReq) : Run :=
  if [some req.tweetId, req.content].any trimIsEmpty then
    ⟨.apiError 400 "All fields are required", db, []⟩
  else if !env.isValidObjectId req.tweetId then ⟨.apiError 400 "Tweet Id is not valid", db, []⟩
  else
    let currentUser := req.user
    match validateCurrentUserAgainstOwner db currentUser req.tweetId
        "You do not have permission to update this Tweet" with
    | some e => ⟨e, db, []⟩
    | none =>
      match Tweet.findByIdAndUpdate db req.tweetId req.content with
      | (none, db') => ⟨.apiError 500 "Something went wrong while updating tweet", db', []⟩
      | (some updateTweet, db') =>
        ⟨.json 200 (.tweet updateTweet) "Tweet updated successfully.", db', []⟩

/-- A request to `deleteTweet`: `req.params.tweetId` and `req.user._id`. -/
structure DeleteTweetReq where
  tweetId : String
  user : String

/-- The handler `deleteTweet`. -/
def deleteTweet (env : Env) (db : Db) (req : DeleteTweetReq) : Run :=
  if req.tweetId == "" then ⟨.apiError 400 "Tweet Id is not available in params", db, []⟩
  else if !env.isValidObjectId req.tweetId then ⟨.apiError 400 "Tweet Id is not valid", db, []⟩
  else
    let currentUser := req.user
    match validateCurrentUserAgainstOwner db currentUser req.tweetId
        "You do not have permission to delete this Tweet" with
    | some e => ⟨e, db, []⟩
    | none =>
      match Tweet.findByIdAndDelete db req.tweetId with
      | (none, db') => ⟨.apiError 404 "Tweet Not found", db', []⟩
      | (some _, db') => ⟨.json 200 .empty "Tweet deleted successfully.", db', []⟩

/-! ## video.controller.js: listing -/

/-- The value of a run of decimal digits. -/
def digitsValue (cs : List Char) : Nat :=
  cs.foldl (fun acc c => 10 * acc + (c.toNat - 48)) 0

/-- The least `e` with `n / 2 ^ e < 2 ^ 53`, found by halving `n` at most
`fuel` times. -/
def binaryExponent : Nat → Nat → Nat
  | 0, _ => 0
  | fuel + 1, n => if n < 2 ^ 53 then 0 else binaryExponent fuel (n / 2) + 1

/-- The Number value of a natural number: the number itself below `2 ^ 53`,
otherwise the nearest multiple of `2 ^ e` with a 53-bit factor, ties going to
the even factor; `none` is the overflow to `Infinity`. -/
def toDouble (n : Nat) : Option Nat :=
  if n < 2 ^ 53 then some n
  else
    let e := binaryExponent n n
    let q := n / 2 ^ e
    let r := n % 2 ^ e
    let half := 2 ^ (e - 1)
    let q' := if half < r || (r == half && q % 2 == 1) then q + 1 else q
    if q' * 2 ^ e < 2 ^ 1024 then some (q' * 2 ^ e) else none

/-- The characters of the text after leading white space. -/
def skipWhiteSpace (s : String) : List Char := s.data.dropWhile jsIsWhiteSpace

/-- The characters after one leading sign, if there is one. -/
def afterSign (cs : List Char) : List Char :=
  if cs.head? == some '-' || cs.head? == some '+' then cs.tail else cs

/-- The function `parseInt(s, 10)` on text: leading white space is skipped, a
sign is read, then the longest run of decimal digits; no digit gives `NaN`,
otherwise the result is the Number value of the signed integer read (an
engine may read digits after the twentieth as zeros; here all are read). -/
def parseInt (s : String) : JSNumber :=
  let cs := skipWhiteSpace s
  let negative := cs.head? == some '-'
  let ds := (afterSign cs).takeWhile Char.isDigit
  if ds.isEmpty then .nan
  else
    let mathInt := digitsValue ds
    if mathInt == 0 then (if negative then .negZero else .finite 0)
    else
      match toDouble mathInt with
      | none => .infinity negative
      | some m => .finite (if negative then -(m : Int) else (m : Int))

/-- A request to `getAllVideos`: the members of `req.query`. -/
structure ListReq where
  page : Option String
  limit : Option String
  query : Option String
  sortBy : Option String
  sortType : Option String
  userId : Option String

/-- The `options` object of `getAllVideos`: page, limit and the one-field
sort (the field name and `1` or `-1`). -/
structure ListOptions where
  page : JSNumber
  limit : JSNumber
  sortField : String
  sortDir : Int

/-- The `options` built by `getAllVideos`: `page = 1` and `limit = 10` stand in
for an absent parameter, a present one goes through `parseInt(·, 10)`; an
absent `sortBy` gives the computed key `"undefined"`. -/
def getAllVideos.options (req : ListReq) : ListOptions :=
  { page := match req.page with
      | none => .finite 1
      | some s => parseInt s
    limit := match req.limit with
      | none => .finite 10
      | some s => parseInt s
    sortField := req.sortBy.getD "undefined"
    sortDir := if req.sortType == some "desc" then -1 else 1 }

/-- The `match` object of `getAllVideos`: the pattern of the `$or` over title
and description, and the owner filter. -/
structure Match where
  or : Option String
  owner : Option String
  deriving DecidableEq, Repr

/-- The `match` built by `getAllVideos`. -/
def getAllVideos.match (req : ListReq) : Match :=
  { or := if truthy req.query then req.query else none
    owner := if truthy req.userId then req.userId else none }

/-- The test `{ field: { $regex: query, $options: 'i' } }` on one field. -/
def regexField (test : String → Bool) (field : Option String) : Bool :=
  match field with
  | none => false
  | some s => test s

/-- Whether a video satisfies `match`; `none` when the pattern does not
compile. -/
def Match.matches (env : Env) (m : Match) (v : Video) : Option Bool :=
  let ownerOk := match m.owner with
    | none => true
    | some userId => env.ownerEq v.owner userId
  match m.or with
  | none => some ownerOk
  | some query =>
    match env.regex query "i" with
    | none => none
    | some test => some ((regexField test v.title || regexField test v.description) && ownerOk)

/-- The stage `{ $match: match }`; `none` when the pattern does not compile. -/
def matchStage (env : Env) (m : Match) (videos : List Video) : Option (List Video) :=
  match m.or with
  | none => some (videos.filter (fun v => (m.matches env v).getD false))
  | some query =>
    match env.regex query "i" with
    | none => none
    | some _ => some (videos.filter (fun v => (m.matches env v).getD false))

/-- The stage `$project`: `_id`, `title`, `description` and three fields of
the joined owner. -/
def projectView (v : Video) (u : User) : VideoView :=
  { _id := v._id, title := v.title, description := v.description,
    owner := { username := u.username, fullName := u.fullName, avatar := u.avatar } }

/-- The stages `$lookup` from `users` on `owner = _id`, `$unwind` of the
joined array and `$project`: one view per user the owner field names. -/
def joinOwner (users : List User) (v : Video) : List VideoView :=
  (users.filter (fun u => u._id == v.owner)).map (projectView v)

/-- The aggregation of `getAllVideos`: match, sort, join, unwind, project. -/
def aggregation (env : Env) (db : Db) (m : Match) (o : ListOptions) : Option (List VideoView) :=
  match matchStage env m db.videos with
  | none => none
  | some matched => some ((env.sortStage o.sortField o.sortDir matched).flatMap (joinOwner db.users))

/-- Modelled from the spec: the paginator `Video.aggregatePaginate`, attached
to the model in `models/video.model.js`, which is not among the sources.
For a page and a page size that are at least 1 it skips
`(page - 1) × pageSize` results of the aggregation, keeps `pageSize`, and
reports the total counted before pagination. -/
def aggregatePaginate (env : Env) (results : List VideoView) (page limit : JSNumber) :
    Outcome ⊕ Page :=
  match page, limit with
  | .finite p, .finite l =>
    if 1 ≤ p ∧ 1 ≤ l then
      .inr { docs := (results.drop ((p.toNat - 1) * l.toNat)).take l.toNat
             totalDocs := results.length
             limit := l.toNat
             page := p.toNat }
    else .inl (env.paginateOther results page limit)
  | _, _ => .inl (env.paginateOther results page limit)

/-- The handler `getAllVideos`. -/
def getAllVideos (env : Env) (db : Db) (req : ListReq) : Run :=
  let options := getAllVideos.options req
  let m := getAllVideos.match req
  match aggregation env db m options with
  | none => ⟨.storeError, db, []⟩
  | some results =>
    match aggregatePaginate env results options.page options.limit with
    | .inl other => ⟨other, db, []⟩
    | .inr videos => ⟨.json 200 (.page videos) "Videos fetched successfully", db, []⟩

/-! ## video.controller.js: life cycle -/

/-- The query `Video.findById`, also `Video.findOne({ _id })`. -/
def Video.findById (db : Db) (id : String) : Option Video :=
  db.videos.find? (fun v => v._id == id)

/-- The call `Video.findByIdAndUpdate(id, update, { new: true })` for an update
that is a function of the stored document. -/
def Video.findByIdAndUpdate (db : Db) (id : String) (update : Video → Video) :
    Option Video × Db :=
  match db.videos.find? (fun v => v._id == id) with
  | none => (none, db)
  | some v =>
    (some (update v), { db with videos := updateFirst (fun v => v._id == id) update db.videos })

/-- The update `{ $set: { title, description, thumbnail } }`: an `undefined`
value is dropped from the update by the driver. -/
def Video.set (title description thumbnail : Option String) (v : Video) : Video :=
  { v with
    title := if title.isSome then title else v.title
    description := if description.isSome then description else v.description
    thumbnail := thumbnail.getD v.thumbnail }

/-- The update `{ $set: { isPublished } }`. -/
def Video.setPublished (isPublished : Bool) (v : Video) : Video :=
  { v with isPublished := isPublished }

/-- A file object of the upload middleware. -/
structure FileObj where
  path : Option String
  deriving DecidableEq, Repr

/-- The member `req.files` of a publish request. -/
structure Files where
  videoFile : Option (List FileObj)
  thumbnail : Option (List FileObj)
  deriving DecidableEq, Repr

/-- The expression `req.files?.field[0]?.path`: an absent `req.files` ends the
chain with `undefined`; indexing an absent field is a `TypeError` (`none`). -/
def firstPath (files : Option Files) (field : Files → Option (List FileObj)) :
    Option (Option String) :=
  match files with
  | none => some none
  | some fs =>
    match field fs with
    | none => none
    | some arr =>
      match arr.head? with
      | none => some none
      | some f => some f.path

/-- The call `Video.create(...)` of `publishAVideo`: the new document and the
store, or nothing when the schema rejects the document. -/
def Video.create (env : Env) (db : Db) (videoFile thumbnail : String)
    (title description : Option String) (duration : Nat) (owner : String) :
    Option (Video × Db) :=
  let v : Video :=
    { _id := env.freshId (db.videos.map (·._id)), videoFile := videoFile, thumbnail := thumbnail,
      title := title, description := description, duration := duration,
      isPublished := env.isPublishedDefault, owner := owner }
  if env.videoSchema v then some (v, { db with videos := db.videos ++ [v] }) else none

/-- A request to `publishAVideo`: `req.body`, `req.files` and `req.user._id`. -/
structure PublishReq where
  title : Option String
  description : Option String
  files : Option Files
  user : String

/-- The handler `publishAVideo`. -/
def publishAVideo (env : Env) (db : Db) (req : PublishReq) : Run :=
  if [req.title, req.description].any trimIsEmpty then
    ⟨.apiError 400 "All fields are required", db, []⟩
  else
    match firstPath req.files (·.videoFile) with
    | none => ⟨.typeError, db, []⟩
    | some videoLocalPath =>
      match firstPath req.files (·.thumbnail) with
      | none => ⟨.typeError, db, []⟩
      | some thumbnailLocalPath =>
        if !truthy videoLocalPath then ⟨.apiError 400 "Video file is required", db, []⟩
        else if !truthy thumbnailLocalPath then
          ⟨.apiError 400 "Thumbnail file is required", db, []⟩
        else
          let vPath := videoLocalPath.getD ""
          let tPath := thumbnailLocalPath.getD ""
          let assets := [AssetCall.upload vPath, AssetCall.upload tPath]
          match env.uploadOnCloudinary vPath, env.uploadOnCloudinary tPath with
          | none, _ => ⟨.apiError 400 "Video file is required", db, assets⟩
          | some _, none => ⟨.apiError 400 "Thumbnail file is required", db, assets⟩
          | some video, some thumbnail =>
            match Video.create env db video.url thumbnail.url req.title req.description
                video.duration req.user with
            | none => ⟨.storeError, db, assets⟩
            -- a created document is an object, so the `!videoCreated` branch is never taken
            | some (videoCreated, db') =>
              ⟨.json 200 (.video videoCreated) "Video uploaded successfully", db', assets⟩

/-- A request to `updateVideo`: `req.params.videoId`, `req.body`, `req.file`
and `req.user._id` (which the handler does not read). -/
structure UpdateVideoReq where
  videoId : String
  title : Option String
  description : Option String
  file : Option FileObj
  user : String

/-- The handler `updateVideo`. -/
def updateVideo (env : Env) (db : Db) (req : UpdateVideoReq) : Run :=
  if req.videoId == "" then ⟨.apiError 400 "Video ID is required", db, []⟩
  else if !env.isValidObjectId req.videoId then ⟨.apiError 400 "Video Id is not valid", db, []⟩
  else if [req.title, req.description].any trimIsEmpty then
    ⟨.apiError 400 "All fields are required", db, []⟩
  else
    match Video.findById db req.videoId with
    | none => ⟨.apiError 404 "video not found", db, []⟩
    | some previousVideo =>
      -- `req.file.path` on an absent `req.file`
      match req.file with
      | none => ⟨.typeError, db, []⟩
      | some file =>
        let thumbnailLocalPath := file.path
        if truthy thumbnailLocalPath then
          let publicId := env.getPublicIdFromUrl previousVideo.thumbnail
          let deletedFile := env.deleteOnCloudinary publicId
          if deletedFile == some "not found" then
            ⟨.apiError 404 "File not found for deleting", db, [.delete publicId]⟩
          else
            let localPath := thumbnailLocalPath.getD ""
            let assets := [AssetCall.delete publicId, AssetCall.upload localPath]
            match env.uploadOnCloudinary localPath with
            | none => ⟨.apiError 500 "Error uploading thumbnail to Cloudinary", db, assets⟩
            | some thumbnailImage =>
              let newThumbnailUrl := thumbnailImage.url
              match Video.findByIdAndUpdate db req.videoId
                  (Video.set req.title req.description (some newThumbnailUrl)) with
              | (none, db') => ⟨.apiError 500 "Error updating video details", db', assets⟩
              | (some updatedVideoDetails, db') =>
                ⟨.json 200 (.video updatedVideoDetails) "Video details updated successfully",
                  db', assets⟩
        else
          match Video.findByIdAndUpdate db req.videoId
              (Video.set req.title req.description none) with
          | (none, db') => ⟨.apiError 500 "Error updating video details", db', []⟩
          | (some updatedVideoDetails, db') =>
            ⟨.json 200 (.video updatedVideoDetails) "Video details updated successfully", db', []⟩

/-- A request to `togglePublishStatus`: `req.params.videoId`. -/
structure ToggleReq where
  videoId : String

/-- The handler `togglePublishStatus`. -/
def togglePublishStatus (env : Env) (db : Db) (req : ToggleReq) : Run :=
  if req.videoId == "" then ⟨.apiError 400 "Video ID is required", db, []⟩
  else if !env.isValidObjectId req.videoId then ⟨.apiError 400 "Video Id is not valid", db, []⟩
  else
    match Video.findById db req.videoId with
    | none => ⟨.apiError 404 "Video not found", db, []⟩
    | some video =>
      let isPublished := video.isPublished
      match Video.findByIdAndUpdate db req.videoId (Video.setPublished (!isPublished)) with
      | (none, db') => ⟨.json 200 .noVideo "Video Status Changed Successfully", db', []⟩
      | (some updateVideo, db') =>
        ⟨.json 200 (.video updateVideo) "Video Status Changed Successfully", db', []⟩

/-! ## A regular-expression engine for patterns of literals and dots -/

/-- The characters with a special meaning in a pattern. -/
def isMetaChar (c : Char) : Bool := "\\^$.|?*+()[]\x7b\x7d".data.contains c

/-- One pattern element: a literal character or the dot. -/
inductive Atom
  | lit (c : Char)
  | any
  deriving DecidableEq, Repr

/-- Compile a pattern made of literal characters and dots; a pattern using
another special character is outside this fragment. -/
def compileAtoms : List Char → Option (List Atom)
  | [] => some []
  | c :: cs =>
    if c == '.' then (compileAtoms cs).map (fun as => Atom.any :: as)
    else if isMetaChar c then none
    else (compileAtoms cs).map (fun as => Atom.lit c :: as)

/-- Whether an element accepts a character: a literal up to case folding, the
dot anything but a line feed. -/
def Atom.accepts (fold : Char → Char) : Atom → Char → Bool
  | .lit c, d => fold c == fold d
  | .any, d => d != '\n'

/-- Match the elements at the start of the text. -/
def matchHere (fold : Char → Char) : List Atom → List Char → Bool
  | [], _ => true
  | _ :: _, [] => false
  | a :: as, c :: cs => a.accepts fold c && matchHere fold as cs

/-- Match the elements somewhere in the text (the pattern is not anchored). -/
def searchAtoms (fold : Char → Char) (as : List Atom) : List Char → Bool
  | [] => matchHere fold as []
  | c :: cs => matchHere fold as (c :: cs) || searchAtoms fold as cs

/-- The engine on the fragment: option `i` compares letters through `fold`. -/
def fragmentRegex (fold : Char → Char) (pattern options : String) : Option (String → Bool) :=
  (compileAtoms pattern.data).map (fun as s =>
    searchAtoms (if options.data.contains 'i' then fold else id) as s.data)

/-- The property the listing is specified by: `q`, compared through `fold`, is a
literal substring of the text. -/
def literalSubstring (fold : Char → Char) (q text : String) : Prop :=
  (q.data.map fold) <:+: (text.data.map fold)

/-! ## Sample collaborators and store -/

/-- Twenty-four hexadecimal digits. -/
def isHex24 (s : String) : Bool :=
  s.data.length == 24 && s.data.all (fun c => c.isDigit || ('a' ≤ c && c ≤ 'f') ||
    ('A' ≤ c && c ≤ 'F'))

/-- Sample collaborators: an asset store that succeeds, schemas that accept,
the fragment engine with ASCII case folding, a sort on `duration`. -/
def sampleEnv : Env where
  isValidObjectId := isHex24
  freshId := fun ids => "65000000000000000000" ++ toString (1000 + ids.length)
  tweetSchema := fun _ => true
  videoSchema := fun _ => true
  isPublishedDefault := true
  getPublicIdFromUrl := fun url => String.mk (url.data.reverse.takeWhile (· != '/')).reverse
  deleteOnCloudinary := fun _ => some "ok"
  uploadOnCloudinary := fun localPath => some { url := "cdn/" ++ localPath, duration := 42 }
  regex := fragmentRegex Char.toLower
  ownerEq := fun owner userId => owner == userId
  sortStage := fun field dir vs =>
    if field == "duration" then
      if dir == 1 then vs.insertionSort (fun a b => a.duration ≤ b.duration)
      else vs.insertionSort (fun a b => b.duration ≤ a.duration)
    else vs
  paginateOther := fun _ _ _ => .storeError

/-- The sample collaborators with an engine that also compiles the pattern
`a*`, which every text matches. -/
def starEnv : Env :=
  { sampleEnv with
    regex := fun pattern options =>
      if pattern == "a*" then some (fun _ => true)
      else fragmentRegex Char.toLower pattern options }

/-- Identifier of the sample user who owns the sample documents. -/
def alice : String := "aaaaaaaaaaaaaaaaaaaaaaaa"

/-- Identifier of a second sample user. -/
def bob : String := "bbbbbbbbbbbbbbbbbbbbbbbb"

/-- The sample tweet, owned by `alice`. -/
def sampleTweet : Tweet :=
  { _id := "111111111111111111111111", content := "first post", owner := alice }

/-- The sample video, owned by `alice`. -/
def sampleVideo : Video :=
  { _id := "222222222222222222222222", videoFile := "cdn/ocean.mp4",
    thumbnail := "cdn/ocean.png", title := some "Ocean Waves",
    description := some "surf at dawn", duration := 42, isPublished := true, owner := alice }

/-- A store holding the sample documents. -/
def sampleDb : Db :=
  { tweets := [sampleTweet]
    videos := [sampleVideo]
    users := [{ _id := alice, username := "alice", fullName := "Alice A", avatar := "cdn/a.png" },
              { _id := bob, username := "bob", fullName := "Bob B", avatar := "cdn/b.png" }] }

/-- A character of the decimal numeral of a number is a digit, neither white
space nor a sign. -/
def isPlainDigit (c : Char) : Prop :=
  c.isDigit = true ∧ jsIsWhiteSpace c = false ∧ c ≠ '-' ∧ c ≠ '+'

/-- The documents of the page a run answered with, if it answered with one. -/
def Run.docs (r : Run) : List VideoView :=
  match r.outcome with
  | .json _ (.page p) _ => p.docs
  | _ => []

/-- A sample video about cats, owned by `alice`. -/
def catVideo (i : Nat) : Video :=
  { _id := "cccccccccccccccccccccc" ++ toString (10 + i), videoFile := "cdn/cat.mp4",
    thumbnail := "cdn/cat.png", title := some ("Cat number " ++ toString i),
    description := some "pets", duration := i, isPublished := true, owner := alice }

/-- A store of the sample video and twelve videos about cats. -/
def catDb : Db :=
  { tweets := [], videos := sampleVideo :: (List.range 12).map catVideo, users := sampleDb.users }

/-- The listing of the twelve videos about cats. -/
def catResults : List VideoView :=
  (List.range 12).map (fun i =>
    projectView (catVideo i)
      { _id := alice, username := "alice", fullName := "Alice A", avatar := "cdn/a.png" })

/-! ## Lemmas on the store operations -/

theorem find?_updateFirst {α : Type} (p : α → Bool) (f : α → α) (hp : ∀ x, p (f x) = p x)
    (l : List α) : (updateFirst p f l).find? p = (l.find? p).map f := by
  induction l with
  | nil => rfl
  | cons x xs ih =>
    by_cases hx : p x = true
    · simp [updateFirst, hx, List.find?, hp]
    · simp [updateFirst, hx, List.find?, ih]

theorem updateFirst_updateFirst {α : Type} (p : α → Bool) (f g : α → α)
    (hp : ∀ x, p (g x) = p x) (l : List α) :
    updateFirst p f (updateFirst p g l) = updateFirst p (fun x => f (g x)) l := by
  induction l with
  | nil => rfl
  | cons x xs ih =>
    by_cases hx : p x = true
    · simp [updateFirst, hx, hp]
    · simp [updateFirst, hx, ih]

theorem updateFirst_fixed {α : Type} (p : α → Bool) (f : α → α) (l : List α)
    (h : ∀ x, l.find? p = some x → f x = x) : updateFirst p f l = l := by
  induction l with
  | nil => rfl
  | cons x xs ih =>
    by_cases hx : p x = true
    · have := h x (by simp [List.find?, hx])
      simp [updateFirst, hx, this]
    · have hxs : ∀ y, xs.find? p = some y → f y = y := by
        intro y hy
        exact h y (by simpa [List.find?, hx] using hy)
      simp [updateFirst, hx, ih hxs]

theorem updateFirst_first {α : Type} (p : α → Bool) (f : α → α) (l : List α) (x : α)
    (h : l.find? p = some x) : updateFirst p f l = updateFirst p (fun _ => f x) l := by
  induction l with
  | nil => rfl
  | cons y ys ih =>
    by_cases hy : p y = true
    · have hxy : y = x := by simpa [List.find?, hy] using h
      subst hxy
      simp [updateFirst, hy]
    · have hys : ys.find? p = some x := by simpa [List.find?, hy] using h
      simp [updateFirst, hy, ih hys]

theorem map_updateFirst {α β : Type} (p : α → Bool) (f : α → α) (g : α → β)
    (h : ∀ x, g (f x) = g x) (l : List α) : (updateFirst p f l).map g = l.map g := by
  induction l with
  | nil => rfl
  | cons x xs ih =>
    by_cases hx : p x = true
    · simp [updateFirst, hx, h]
    · simp [updateFirst, hx, ih]

/-! ## Ownership of tweets (C1, C9) -/

theorem jsTrim_empty : jsTrim "" = "" := by decide

/-- C1 (amended): a `deleteTweet` request, and an `updateTweet` request whose
content is absent or not blank, naming with a valid non-blank id an existing
tweet whose owner differs from the acting user, fails with 403, leaves the
store as it was and issues no external call; an `updateTweet` request with
blank content fails with 400 before the ownership check, the store likewise
untouched. -/
theorem tweet_owner_mismatch_forbidden (env : Env) (db : Db) (tweetId user : String)
    (content : Option String) (t : Tweet)
    (hvalid : env.isValidObjectId tweetId = true) (hid : jsTrim tweetId ≠ "")
    (hfind : Tweet.findById db tweetId = some t) (howner : t.owner ≠ user) :
    deleteTweet env db ⟨tweetId, user⟩ =
      ⟨.apiError 403 "You do not have permission to delete this Tweet", db, []⟩ ∧
    (trimIsEmpty content = false →
      updateTweet env db ⟨tweetId, content, user⟩ =
        ⟨.apiError 403 "You do not have permission to update this Tweet", db, []⟩) ∧
    (trimIsEmpty content = true →
      updateTweet env db ⟨tweetId, content, user⟩ =
        ⟨.apiError 400 "All fields are required", db, []⟩) := by
  have hne : tweetId ≠ "" := by
    intro h
    exact hid (h ▸ jsTrim_empty)
  have hguard : ∀ message, validateCurrentUserAgainstOwner db user tweetId message =
      some (.apiError 403 message) := by
    intro message
    simp [validateCurrentUserAgainstOwner, findTweetById, hfind, howner]
  refine ⟨?_, ?_, ?_⟩
  · simp [deleteTweet, hne, hvalid, hguard]
  · intro hc
    have hidEmpty : trimIsEmpty (some tweetId) = false := by simp [trimIsEmpty, hid]
    simp [updateTweet, hidEmpty, hc, hvalid, hguard]
  · intro hc
    simp [updateTweet, hc]

/-- Witness for `tweet_owner_mismatch_forbidden`: `bob` acting on the sample
tweet of `alice`. -/
theorem tweet_owner_mismatch_forbidden_witness :
    deleteTweet sampleEnv sampleDb ⟨sampleTweet._id, bob⟩ =
      ⟨.apiError 403 "You do not have permission to delete this Tweet", sampleDb, []⟩ ∧
    (trimIsEmpty (some "edited") = false →
      updateTweet sampleEnv sampleDb ⟨sampleTweet._id, some "edited", bob⟩ =
        ⟨.apiError 403 "You do not have permission to update this Tweet", sampleDb, []⟩) ∧
    (trimIsEmpty (some "edited") = true →
      updateTweet sampleEnv sampleDb ⟨sampleTweet._id, some "edited", bob⟩ =
        ⟨.apiError 400 "All fields are required", sampleDb, []⟩) :=
  tweet_owner_mismatch_forbidden sampleEnv sampleDb sampleTweet._id bob (some "edited")
    sampleTweet (by decide) (by decide) (by decide) (by decide)

/-- C1 (counterexample): `bob` sends `updateTweet` with empty content for the
sample tweet, which exists, has a valid non-empty id and is owned by `alice`;
the request fails with 400, not 403. -/
theorem updateTweet_blank_content_is_400 :
    sampleEnv.isValidObjectId sampleTweet._id = true ∧ sampleTweet._id ≠ "" ∧
    Tweet.findById sampleDb sampleTweet._id = some sampleTweet ∧ sampleTweet.owner ≠ bob ∧
    (updateTweet sampleEnv sampleDb ⟨sampleTweet._id, some "", bob⟩).outcome =
      .apiError 400 "All fields are required" ∧
    ¬ ∃ message, (updateTweet sampleEnv sampleDb ⟨sampleTweet._id, some "", bob⟩).outcome =
      .apiError 403 message := by
  refine ⟨by decide, by decide, by decide, by decide, by decide, ?_⟩
  rintro ⟨message, h⟩
  have h400 : (updateTweet sampleEnv sampleDb ⟨sampleTweet._id, some "", bob⟩).outcome =
      .apiError 400 "All fields are required" := by decide
  rw [h400] at h
  cases h

/-- C9 (the code at the failing input): `alice` sends `updateTweet` for her own
tweet with no `content` in the body; the handler answers 200 with the stored
tweet instead of failing with 400, whereas empty and blank content do fail
with 400. -/
theorem updateTweet_missing_content_answers_200 :
    updateTweet sampleEnv sampleDb ⟨sampleTweet._id, none, alice⟩ =
      ⟨.json 200 (.tweet sampleTweet) "Tweet updated successfully.", sampleDb, []⟩ ∧
    updateTweet sampleEnv sampleDb ⟨sampleTweet._id, some "", alice⟩ =
      ⟨.apiError 400 "All fields are required", sampleDb, []⟩ ∧
    updateTweet sampleEnv sampleDb ⟨sampleTweet._id, some " \t ", alice⟩ =
      ⟨.apiError 400 "All fields are required", sampleDb, []⟩ := by
  refine ⟨by decide, by decide, by decide⟩

/-! ## Owner of a created resource (C3) -/

/-- C3: when `createTweet` or `publishAVideo` answers, the answer carries the
created document, its owner is the acting user, and the document is the one
appended to the collection, for every request body. -/
theorem created_owner_is_acting_user (env : Env) (db : Db) :
    (∀ (req : CreateTweetReq) (status : Nat) (data : Payload) (message : String),
      (createTweet env db req).outcome = .json status data message →
      ∃ t : Tweet, data = .tweet t ∧ t.owner = req.user ∧
        (createTweet env db req).db = { db with tweets := db.tweets ++ [t] }) ∧
    (∀ (req : PublishReq) (status : Nat) (data : Payload) (message : String),
      (publishAVideo env db req).outcome = .json status data message →
      ∃ v : Video, data = .video v ∧ v.owner = req.user ∧
        (publishAVideo env db req).db = { db with videos := db.videos ++ [v] }) := by
  constructor
  · intro req status data message h
    unfold createTweet at h ⊢
    by_cases h1 : (!truthy req.content) = true
    · simp [h1] at h
    by_cases h2 : (!env.isValidObjectId req.user) = true
    · simp [h1, h2] at h
    simp only [h1, h2, if_false, Bool.false_eq_true] at h ⊢
    cases hc : Tweet.create env db (req.content.getD "") req.user with
    | none => simp [hc] at h
    | some r =>
      obtain ⟨t, db'⟩ := r
      simp only [hc] at h ⊢
      unfold Tweet.create at hc
      dsimp only at hc
      split_ifs at hc
      simp only [Option.some.injEq, Prod.mk.injEq] at hc
      obtain ⟨ht, hdb⟩ := hc
      refine ⟨t, ?_, ?_, ?_⟩
      · simp only [Outcome.json.injEq] at h
        exact h.2.1.symm
      · rw [← ht]
      · rw [← hdb, ← ht]
  · intro req status data message h
    unfold publishAVideo at h ⊢
    by_cases h1 : [req.title, req.description].any trimIsEmpty = true
    · simp [h1] at h
    simp only [h1, if_false, Bool.false_eq_true] at h ⊢
    cases hv : firstPath req.files (·.videoFile) with
    | none => simp [hv] at h
    | some videoLocalPath =>
      cases ht : firstPath req.files (·.thumbnail) with
      | none => simp [hv, ht] at h
      | some thumbnailLocalPath =>
        simp only [hv, ht] at h ⊢
        by_cases h2 : (!truthy videoLocalPath) = true
        · simp [h2] at h
        by_cases h3 : (!truthy thumbnailLocalPath) = true
        · simp [h2, h3] at h
        simp only [h2, h3, if_false, Bool.false_eq_true] at h ⊢
        cases hu1 : env.uploadOnCloudinary (videoLocalPath.getD "") with
        | none => simp [hu1] at h
        | some video =>
          cases hu2 : env.uploadOnCloudinary (thumbnailLocalPath.getD "") with
          | none => simp [hu1, hu2] at h
          | some thumbnail =>
            simp only [hu1, hu2] at h ⊢
            cases hc : Video.create env db video.url thumbnail.url req.title req.description
                video.duration req.user with
            | none => simp [hc] at h
            | some r =>
              obtain ⟨v, db'⟩ := r
              simp only [hc] at h ⊢
              unfold Video.create at hc
              dsimp only at hc
              split_ifs at hc
              simp only [Option.some.injEq, Prod.mk.injEq] at hc
              obtain ⟨hv', hdb⟩ := hc
              refine ⟨v, ?_, ?_, ?_⟩
              · simp only [Outcome.json.injEq] at h
                exact h.2.1.symm
              · rw [← hv']
              · rw [← hdb, ← hv']

/-- Witness for `created_owner_is_acting_user`: `bob` posts a tweet and
publishes a video against the sample store. -/
theorem created_owner_is_acting_user_witness :
    (∃ t : Tweet, t.owner = bob ∧
      (createTweet sampleEnv sampleDb ⟨some "hello", bob⟩).db =
        { sampleDb with tweets := sampleDb.tweets ++ [t] }) ∧
    (∃ v : Video, v.owner = bob ∧
      (publishAVideo sampleEnv sampleDb
        ⟨some "Cats", some "two cats", some ⟨some [⟨some "tmp/c.mp4"⟩], some [⟨some "tmp/c.png"⟩]⟩,
          bob⟩).db = { sampleDb with videos := sampleDb.videos ++ [v] }) := by
  constructor
  · obtain ⟨t, _, ho, hdb⟩ := (created_owner_is_acting_user sampleEnv sampleDb).1
      ⟨some "hello", bob⟩ 200 _ _ rfl
    exact ⟨t, ho, hdb⟩
  · obtain ⟨v, _, ho, hdb⟩ := (created_owner_is_acting_user sampleEnv sampleDb).2
      ⟨some "Cats", some "two cats", some ⟨some [⟨some "tmp/c.mp4"⟩], some [⟨some "tmp/c.png"⟩]⟩,
        bob⟩ 200 _ _ rfl
    exact ⟨v, ho, hdb⟩

/-! ## Publication flag (C7) -/

/-- C7: on an existing video, `togglePublishStatus` answers with the stored
document whose `isPublished` is negated and changes nothing else in the
store; a second call answers with the original document and leaves the
store as it was before the first. -/
theorem toggle_twice_restores (env : Env) (db : Db) (videoId : String) (v : Video)
    (hne : videoId ≠ "") (hvalid : env.isValidObjectId videoId = true)
    (hfind : Video.findById db videoId = some v) :
    (togglePublishStatus env db ⟨videoId⟩).outcome =
      .json 200 (.video { v with isPublished := !v.isPublished })
        "Video Status Changed Successfully" ∧
    Video.findById (togglePublishStatus env db ⟨videoId⟩).db videoId =
      some { v with isPublished := !v.isPublished } ∧
    (togglePublishStatus env db ⟨videoId⟩).db.videos.map (Video.setPublished true) =
      db.videos.map (Video.setPublished true) ∧
    (togglePublishStatus env db ⟨videoId⟩).db.videos.length = db.videos.length ∧
    (togglePublishStatus env db ⟨videoId⟩).db.tweets = db.tweets ∧
    (togglePublishStatus env db ⟨videoId⟩).db.users = db.users ∧
    (togglePublishStatus env (togglePublishStatus env db ⟨videoId⟩).db ⟨videoId⟩).outcome =
      .json 200 (.video v) "Video Status Changed Successfully" ∧
    (togglePublishStatus env (togglePublishStatus env db ⟨videoId⟩).db ⟨videoId⟩).db = db := by
  have hfind' : db.videos.find? (fun w => w._id == videoId) = some v := hfind
  have hid : ∀ (b : Bool) (w : Video),
      (fun w : Video => w._id == videoId) (Video.setPublished b w) =
        (fun w : Video => w._id == videoId) w :=
    fun _ _ => rfl
  have honce : togglePublishStatus env db ⟨videoId⟩ =
      ⟨.json 200 (.video (Video.setPublished (!v.isPublished) v))
          "Video Status Changed Successfully",
        { db with
          videos := updateFirst (fun w => w._id == videoId)
            (Video.setPublished (!v.isPublished)) db.videos }, []⟩ := by
    simp [togglePublishStatus, hne, hvalid, hfind, Video.findByIdAndUpdate, hfind']
  have hfind2 : (updateFirst (fun w => w._id == videoId)
      (Video.setPublished (!v.isPublished)) db.videos).find? (fun w => w._id == videoId) =
      some (Video.setPublished (!v.isPublished) v) := by
    rw [find?_updateFirst _ _ (hid _), hfind']
    rfl
  have hdoc : Video.setPublished (!(Video.setPublished (!v.isPublished) v).isPublished)
      (Video.setPublished (!v.isPublished) v) = v := by
    cases v
    simp [Video.setPublished]
  have hback : updateFirst (fun w => w._id == videoId)
      (Video.setPublished (!(Video.setPublished (!v.isPublished) v).isPublished))
      (updateFirst (fun w => w._id == videoId) (Video.setPublished (!v.isPublished))
        db.videos) = db.videos := by
    rw [updateFirst_updateFirst _ _ _ (hid _)]
    apply updateFirst_fixed
    intro x hx
    rw [hfind'] at hx
    cases hx
    exact hdoc
  have htwice : togglePublishStatus env
      { db with
        videos := updateFirst (fun w => w._id == videoId)
          (Video.setPublished (!v.isPublished)) db.videos } ⟨videoId⟩ =
      ⟨.json 200 (.video v) "Video Status Changed Successfully", db, []⟩ := by
    have hstep : togglePublishStatus env
        { db with
          videos := updateFirst (fun w => w._id == videoId)
            (Video.setPublished (!v.isPublished)) db.videos } ⟨videoId⟩ =
        ⟨.json 200
            (.video (Video.setPublished (!(Video.setPublished (!v.isPublished) v).isPublished)
              (Video.setPublished (!v.isPublished) v)))
            "Video Status Changed Successfully",
          { db with
            videos := updateFirst (fun w => w._id == videoId)
              (Video.setPublished (!(Video.setPublished (!v.isPublished) v).isPublished))
              (updateFirst (fun w => w._id == videoId) (Video.setPublished (!v.isPublished))
                db.videos) }, []⟩ := by
      simp only [togglePublishStatus, Video.findById, Video.findByIdAndUpdate, hfind2]
      simp [hne, hvalid]
    rw [hstep, hdoc, hback]
  rw [honce]
  refine ⟨rfl, hfind2, ?_, ?_, rfl, rfl, ?_, ?_⟩
  · exact map_updateFirst (fun w => w._id == videoId) (Video.setPublished (!v.isPublished))
      (Video.setPublished true) (fun _ => rfl) db.videos
  · simpa using congrArg List.length
      (map_updateFirst (fun w => w._id == videoId) (Video.setPublished (!v.isPublished))
        (fun _ => ()) (fun _ => rfl) db.videos)
  · exact congrArg Run.outcome htwice
  · exact congrArg Run.db htwice

/-- Witness for `toggle_twice_restores`: the sample video. -/
theorem toggle_twice_restores_witness :
    (togglePublishStatus sampleEnv sampleDb ⟨sampleVideo._id⟩).outcome =
      .json 200 (.video { sampleVideo with isPublished := false })
        "Video Status Changed Successfully" ∧
    (togglePublishStatus sampleEnv
      (togglePublishStatus sampleEnv sampleDb ⟨sampleVideo._id⟩).db ⟨sampleVideo._id⟩).db =
      sampleDb :=
  have h := toggle_twice_restores sampleEnv sampleDb sampleVideo._id sampleVideo
    (by decide) (by decide) (by decide)
  ⟨h.1, h.2.2.2.2.2.2.2⟩

/-! ## Updating a video (C2, C8, C10) -/

/-- C2 (the code at the failing input): `bob` sends `updateVideo` with new texts
and a new thumbnail for the sample video, which exists and is owned by
`alice`; instead of failing with 403 the request answers 200, the asset store
is called and the stored record is rewritten. -/
theorem updateVideo_by_non_owner_succeeds :
    Video.findById sampleDb sampleVideo._id = some sampleVideo ∧ sampleVideo.owner ≠ bob ∧
    updateVideo sampleEnv sampleDb
      ⟨sampleVideo._id, some "Taken over", some "by bob", some ⟨some "tmp/new.png"⟩, bob⟩ =
      ⟨.json 200
          (.video { sampleVideo with
            title := some "Taken over", description := some "by bob",
            thumbnail := "cdn/tmp/new.png" })
          "Video details updated successfully",
        { sampleDb with
          videos := [{ sampleVideo with
            title := some "Taken over", description := some "by bob",
            thumbnail := "cdn/tmp/new.png" }] },
        [.delete "ocean.png", .upload "tmp/new.png"]⟩ := by
  refine ⟨by decide, by decide, by decide⟩

/-- C8 (the code at the failing input): an `updateVideo` request without a file
never answers: whatever the id, the texts and the user, the run ends in an
error, with the store untouched and no asset call; on the sample video, with
new title and description, it ends in the `TypeError` of `req.file.path`. -/
theorem updateVideo_without_file_never_answers (env : Env) (db : Db) (videoId user : String)
    (title description : Option String) :
    (∀ status data message,
      (updateVideo env db ⟨videoId, title, description, none, user⟩).outcome ≠
        .json status data message) ∧
    (updateVideo env db ⟨videoId, title, description, none, user⟩).db = db ∧
    (updateVideo env db ⟨videoId, title, description, none, user⟩).assets = [] ∧
    updateVideo sampleEnv sampleDb
      ⟨sampleVideo._id, some "New title", some "New text", none, alice⟩ =
      ⟨.typeError, sampleDb, []⟩ := by
  have hsample : updateVideo sampleEnv sampleDb
      ⟨sampleVideo._id, some "New title", some "New text", none, alice⟩ =
      ⟨.typeError, sampleDb, []⟩ := by decide
  have hrun : ∀ r : Run, r = updateVideo env db ⟨videoId, title, description, none, user⟩ →
      (∀ status data message, r.outcome ≠ .json status data message) ∧
      r.db = db ∧ r.assets = [] := by
    intro r hr
    unfold updateVideo at hr
    dsimp only at hr
    split_ifs at hr
    · subst hr
      exact ⟨fun _ _ _ h => Outcome.noConfusion h, rfl, rfl⟩
    · subst hr
      exact ⟨fun _ _ _ h => Outcome.noConfusion h, rfl, rfl⟩
    · subst hr
      exact ⟨fun _ _ _ h => Outcome.noConfusion h, rfl, rfl⟩
    · split at hr <;> subst hr <;> exact ⟨fun _ _ _ h => Outcome.noConfusion h, rfl, rfl⟩
  obtain ⟨h1, h2, h3⟩ := hrun _ rfl
  exact ⟨h1, h2, h3, hsample⟩

/-- C10: on an existing video named by a valid id, with a replacement
thumbnail: blank texts end the request with 400 before any asset call; else
`updateVideo` first asks the asset store to delete the old thumbnail; if the
store reports it as not found the request fails with 404, the upload is not
invoked and the store is untouched; otherwise the new thumbnail is uploaded,
and if that fails the request fails with 500 and the store is untouched;
otherwise one update replaces the stored document by the document whose
thumbnail is the uploaded URL and whose title and description are the
supplied ones (an absent one keeps the stored text), and the answer is 200
with that document. -/
theorem updateVideo_replaces_thumbnail (env : Env) (db : Db) (videoId user localPath : String)
    (title description : Option String) (previousVideo : Video)
    (hne : videoId ≠ "") (hvalid : env.isValidObjectId videoId = true)
    (hfind : Video.findById db videoId = some previousVideo) (hpath : localPath ≠ "") :
    ([title, description].any trimIsEmpty = true →
      updateVideo env db ⟨videoId, title, description, some ⟨some localPath⟩, user⟩ =
        ⟨.apiError 400 "All fields are required", db, []⟩) ∧
    ([title, description].any trimIsEmpty = false →
      (env.deleteOnCloudinary (env.getPublicIdFromUrl previousVideo.thumbnail) =
          some "not found" →
        updateVideo env db ⟨videoId, title, description, some ⟨some localPath⟩, user⟩ =
          ⟨.apiError 404 "File not found for deleting", db,
            [.delete (env.getPublicIdFromUrl previousVideo.thumbnail)]⟩) ∧
      (env.deleteOnCloudinary (env.getPublicIdFromUrl previousVideo.thumbnail) ≠
          some "not found" →
        env.uploadOnCloudinary localPath = none →
        updateVideo env db ⟨videoId, title, description, some ⟨some localPath⟩, user⟩ =
          ⟨.apiError 500 "Error uploading thumbnail to Cloudinary", db,
            [.delete (env.getPublicIdFromUrl previousVideo.thumbnail), .upload localPath]⟩) ∧
      (∀ thumbnailImage : Upload,
        env.deleteOnCloudinary (env.getPublicIdFromUrl previousVideo.thumbnail) ≠
          some "not found" →
        env.uploadOnCloudinary localPath = some thumbnailImage →
        (updateVideo env db
            ⟨videoId, title, description, some ⟨some localPath⟩, user⟩).outcome =
          .json 200
            (.video { previousVideo with
              thumbnail := thumbnailImage.url
              title := if title.isSome then title else previousVideo.title
              description :=
                if description.isSome then description else previousVideo.description })
            "Video details updated successfully" ∧
        (updateVideo env db
            ⟨videoId, title, description, some ⟨some localPath⟩, user⟩).assets =
          [.delete (env.getPublicIdFromUrl previousVideo.thumbnail), .upload localPath] ∧
        Video.findById (updateVideo env db
            ⟨videoId, title, description, some ⟨some localPath⟩, user⟩).db videoId =
          some { previousVideo with
            thumbnail := thumbnailImage.url
            title := if title.isSome then title else previousVideo.title
            description :=
              if description.isSome then description else previousVideo.description } ∧
        (updateVideo env db ⟨videoId, title, description, some ⟨some localPath⟩, user⟩).db =
          { db with
            videos := updateFirst (fun v => v._id == videoId)
              (fun _ => { previousVideo with
                thumbnail := thumbnailImage.url
                title := if title.isSome then title else previousVideo.title
                description :=
                  if description.isSome then description else previousVideo.description })
              db.videos })) := by
  have hfind' : db.videos.find? (fun v => v._id == videoId) = some previousVideo := hfind
  have htruthy : truthy (some localPath) = true := by simp [truthy, hpath]
  refine ⟨?_, ?_⟩
  · intro hany
    simp [updateVideo, hne, hvalid, hany]
  intro hany
  refine ⟨?_, ?_, ?_⟩
  · intro hdel
    simp [updateVideo, hne, hvalid, hany, hfind, htruthy, hdel]
  · intro hdel hup
    simp [updateVideo, hne, hvalid, hany, hfind, htruthy, hdel, hup]
  · intro thumbnailImage hdel hup
    have hrun : updateVideo env db ⟨videoId, title, description, some ⟨some localPath⟩, user⟩ =
        ⟨.json 200
            (.video (Video.set title description (some thumbnailImage.url) previousVideo))
            "Video details updated successfully",
          { db with
            videos := updateFirst (fun v => v._id == videoId)
              (Video.set title description (some thumbnailImage.url)) db.videos },
          [.delete (env.getPublicIdFromUrl previousVideo.thumbnail), .upload localPath]⟩ := by
      simp [updateVideo, hne, hvalid, hany, hfind, htruthy, hdel, hup, Video.findByIdAndUpdate,
        hfind']
    have hdoc : Video.set title description (some thumbnailImage.url) previousVideo =
        { previousVideo with
          thumbnail := thumbnailImage.url
          title := if title.isSome then title else previousVideo.title
          description :=
            if description.isSome then description else previousVideo.description } := rfl
    have hid : ∀ w : Video, (fun v : Video => v._id == videoId)
        (Video.set title description (some thumbnailImage.url) w) =
        (fun v : Video => v._id == videoId) w := fun _ => rfl
    rw [hrun]
    refine ⟨by rw [← hdoc], rfl, ?_, ?_⟩
    · show (updateFirst (fun v => v._id == videoId)
        (Video.set title description (some thumbnailImage.url)) db.videos).find?
          (fun v => v._id == videoId) = _
      rw [find?_updateFirst _ _ hid, hfind', ← hdoc]
      rfl
    · rw [← hdoc, updateFirst_first _ _ _ _ hfind']

/-- Witness for `updateVideo_replaces_thumbnail`: `alice` replaces the
thumbnail of the sample video, once with an asset store that reports the old
thumbnail as not found, once with the sample asset store. -/
theorem updateVideo_replaces_thumbnail_witness :
    updateVideo { sampleEnv with deleteOnCloudinary := fun _ => some "not found" } sampleDb
      ⟨sampleVideo._id, some "Ocean", none, some ⟨some "tmp/new.png"⟩, alice⟩ =
      ⟨.apiError 404 "File not found for deleting", sampleDb, [.delete "ocean.png"]⟩ ∧
    (updateVideo sampleEnv sampleDb
      ⟨sampleVideo._id, some "Ocean", none, some ⟨some "tmp/new.png"⟩, alice⟩).outcome =
      .json 200
        (.video { sampleVideo with
          thumbnail := "cdn/tmp/new.png", title := some "Ocean",
          description := some "surf at dawn" })
        "Video details updated successfully" ∧
    (updateVideo sampleEnv sampleDb
      ⟨sampleVideo._id, some "Ocean", none, some ⟨some "tmp/new.png"⟩, alice⟩).assets =
      [.delete "ocean.png", .upload "tmp/new.png"] :=
  have h404 := ((updateVideo_replaces_thumbnail
      { sampleEnv with deleteOnCloudinary := fun _ => some "not found" } sampleDb
      sampleVideo._id alice "tmp/new.png" (some "Ocean") none sampleVideo
      (by decide) (by decide) (by decide) (by decide)).2 (by decide)).1 rfl
  have h200 := ((updateVideo_replaces_thumbnail sampleEnv sampleDb
      sampleVideo._id alice "tmp/new.png" (some "Ocean") none sampleVideo
      (by decide) (by decide) (by decide) (by decide)).2 (by decide)).2.2
      ⟨"cdn/tmp/new.png", 42⟩ (by decide) (by decide)
  ⟨h404, h200.1, h200.2.1⟩

/-! ## Free-text search (C5) -/

theorem compileAtoms_literals (q : List Char) (hmeta : ∀ c ∈ q, isMetaChar c = false) :
    compileAtoms q = some (q.map Atom.lit) := by
  induction q with
  | nil => rfl
  | cons c cs ih =>
    have hc : isMetaChar c = false := hmeta c (List.mem_cons_self _ _)
    have hdot : (c == '.') = false := by
      cases hd : (c == '.') with
      | false => rfl
      | true =>
        have : c = '.' := by simpa using hd
        subst this
        exact absurd hc (by decide)
    have hcs := ih (fun d hd => hmeta d (List.mem_cons_of_mem _ hd))
    simp [compileAtoms, hdot, hc, hcs]

theorem matchHere_literals (fold : Char → Char) (q s : List Char) :
    matchHere fold (q.map Atom.lit) s = true ↔ (q.map fold) <+: (s.map fold) := by
  induction q generalizing s with
  | nil => simp [matchHere]
  | cons c cs ih =>
    cases s with
    | nil => simp [matchHere]
    | cons d ds =>
      simp [matchHere, Atom.accepts, ih, List.cons_prefix_cons]

theorem searchAtoms_literals (fold : Char → Char) (q s : List Char) :
    searchAtoms fold (q.map Atom.lit) s = true ↔ (q.map fold) <:+: (s.map fold) := by
  induction s with
  | nil =>
    cases q with
    | nil => simp [searchAtoms, matchHere]
    | cons c cs => simp [searchAtoms, matchHere]
  | cons d ds ih =>
    rw [searchAtoms, Bool.or_eq_true, matchHere_literals, ih, List.map_cons, List.infix_cons_iff]

/-- C5 (amended): whenever the store's engine, under option `i`, agrees with
the fragment engine on the patterns of literals and dots, for every query `q`
that is not empty and contains none of the special characters
`\ ^ $ . | ? * + ( ) [ ] { }`, the filter built by `getAllVideos` matches a
video if and only if `q`, compared case-insensitively, is a literal substring
of the title or of the description, and the store's owner equality accepts
the video for a non-empty `userId` of the request. -/
theorem literal_query_is_substring_search (env : Env) (fold : Char → Char) (req : ListReq)
    (q : String) (v : Video)
    (hengine : ∀ pattern test, fragmentRegex fold pattern "i" = some test →
      ∃ test', env.regex pattern "i" = some test' ∧ ∀ s, test' s = test s)
    (hq : req.query = some q) (hne : q ≠ "") (hmeta : ∀ c ∈ q.data, isMetaChar c = false) :
    ∃ verdict : Bool, (getAllVideos.match req).matches env v = some verdict ∧
      (verdict = true ↔
        ((∃ title, v.title = some title ∧ literalSubstring fold q title) ∨
          (∃ description, v.description = some description ∧
            literalSubstring fold q description)) ∧
        (∀ userId, req.userId = some userId → userId ≠ "" →
          env.ownerEq v.owner userId = true)) := by
  have hor : (getAllVideos.match req).or = some q := by
    simp [getAllVideos.match, hq, truthy, hne]
  have hfragment : fragmentRegex fold q "i" =
      some (fun s => searchAtoms fold (q.data.map Atom.lit) s.data) := by
    unfold fragmentRegex
    rw [compileAtoms_literals q.data hmeta]
    have : ("i" : String).data.contains 'i' = true := by decide
    simp [this]
  obtain ⟨test, hcompile, hagree⟩ := hengine q _ hfragment
  have hfield : ∀ field : Option String,
      regexField test field = true ↔
        ∃ text, field = some text ∧ literalSubstring fold q text := by
    intro field
    cases field with
    | none => simp [regexField]
    | some text => simp [regexField, hagree, searchAtoms_literals, literalSubstring]
  cases huser : req.userId with
  | none =>
    have howner : (getAllVideos.match req).owner = none := by
      simp [getAllVideos.match, huser, truthy]
    refine ⟨(regexField test v.title || regexField test v.description) && true,
      by simp only [Match.matches, hor, hcompile, howner], ?_⟩
    simp [hfield]
  | some userId =>
    by_cases hempty : userId = ""
    · have howner : (getAllVideos.match req).owner = none := by
        simp [getAllVideos.match, huser, truthy, hempty]
      refine ⟨(regexField test v.title || regexField test v.description) && true,
        by simp only [Match.matches, hor, hcompile, howner], ?_⟩
      simp [hfield, hempty]
    · have howner : (getAllVideos.match req).owner = some userId := by
        simp [getAllVideos.match, huser, truthy, hempty]
      refine ⟨(regexField test v.title || regexField test v.description) &&
          env.ownerEq v.owner userId,
        by simp only [Match.matches, hor, hcompile, howner], ?_⟩
      simp [hfield, hempty]

theorem starEnv_extends_fragment (pattern : String) (test : String → Bool)
    (h : fragmentRegex Char.toLower pattern "i" = some test) :
    ∃ test', starEnv.regex pattern "i" = some test' ∧ ∀ s, test' s = test s := by
  by_cases hp : pattern = "a*"
  · subst hp
    have hnone : fragmentRegex Char.toLower "a*" "i" = none := rfl
    rw [hnone] at h
    cases h
  · refine ⟨test, ?_, fun _ => rfl⟩
    show (if pattern == "a*" then some (fun _ => true)
      else fragmentRegex Char.toLower pattern "i") = some test
    have hp' : (pattern == "a*") = false := by simpa using hp
    rw [hp']
    exact h

/-- Witness for `literal_query_is_substring_search`: the query `WAVE`, with
the owner filter `alice`, on the sample video, titled `Ocean Waves`, with an
engine that also compiles `a*`. -/
theorem literal_query_is_substring_search_witness :
    ∃ verdict : Bool,
      (getAllVideos.match ⟨none, none, some "WAVE", none, none, some alice⟩).matches starEnv
        sampleVideo = some verdict ∧
      (verdict = true ↔
        ((∃ title, sampleVideo.title = some title ∧ literalSubstring Char.toLower "WAVE" title) ∨
          (∃ description, sampleVideo.description = some description ∧
            literalSubstring Char.toLower "WAVE" description)) ∧
        (∀ userId, (some alice : Option String) = some userId → userId ≠ "" →
          starEnv.ownerEq sampleVideo.owner userId = true)) :=
  literal_query_is_substring_search starEnv Char.toLower
    ⟨none, none, some "WAVE", none, none, some alice⟩ "WAVE" sampleVideo
    starEnv_extends_fragment rfl (by decide) (by decide)

/-- C5 (counterexample): the query `.` matches the sample video, although `.`
is a literal substring neither of its title `Ocean Waves` nor of its
description `surf at dawn`: the query is read as a pattern. -/
theorem dot_query_matches_without_substring :
    (getAllVideos.match ⟨none, none, some ".", none, none, none⟩).matches sampleEnv sampleVideo =
      some true ∧
    sampleVideo.title = some "Ocean Waves" ∧ sampleVideo.description = some "surf at dawn" ∧
    ¬ literalSubstring Char.toLower "." "Ocean Waves" ∧
    ¬ literalSubstring Char.toLower "." "surf at dawn" := by
  refine ⟨by decide, rfl, rfl, ?_, ?_⟩
  · unfold literalSubstring
    decide
  · unfold literalSubstring
    decide

/-! ## Page and page size (C6) -/

/-- The ten decimal digits. -/
theorem digitChar_lt_ten : ∀ d, d < 10 →
    (Nat.digitChar d).isDigit = true ∧ jsIsWhiteSpace (Nat.digitChar d) = false ∧
    Nat.digitChar d ≠ '-' ∧ Nat.digitChar d ≠ '+' ∧ (Nat.digitChar d).toNat - 48 = d := by
  decide

theorem toDigitsCore_append (fuel n : Nat) (acc : List Char) :
    Nat.toDigitsCore 10 fuel n acc = Nat.toDigitsCore 10 fuel n [] ++ acc := by
  induction fuel generalizing n acc with
  | zero => simp [Nat.toDigitsCore]
  | succ fuel ih =>
    simp only [Nat.toDigitsCore]
    split_ifs with h
    · simp
    · rw [ih (n / 10) (Nat.digitChar (n % 10) :: acc), ih (n / 10) [Nat.digitChar (n % 10)]]
      simp

theorem digitsValue_append_singleton (cs : List Char) (c : Char) :
    digitsValue (cs ++ [c]) = 10 * digitsValue cs + (c.toNat - 48) := by
  simp [digitsValue, List.foldl_append]

theorem toDigitsCore_spec (fuel n : Nat) (h : n < fuel) :
    digitsValue (Nat.toDigitsCore 10 fuel n []) = n ∧
    Nat.toDigitsCore 10 fuel n [] ≠ [] ∧
    ∀ c ∈ Nat.toDigitsCore 10 fuel n [], isPlainDigit c := by
  induction fuel generalizing n with
  | zero => omega
  | succ fuel ih =>
    have hd := digitChar_lt_ten (n % 10) (Nat.mod_lt _ (by decide))
    simp only [Nat.toDigitsCore]
    split_ifs with hz
    · refine ⟨?_, by simp, ?_⟩
      · have : digitsValue [Nat.digitChar (n % 10)] = (Nat.digitChar (n % 10)).toNat - 48 := by
          simp [digitsValue]
        rw [this, hd.2.2.2.2]
        omega
      · intro c hc
        simp only [List.mem_singleton] at hc
        subst hc
        exact ⟨hd.1, hd.2.1, hd.2.2.1, hd.2.2.2.1⟩
    · have hlt : n / 10 < fuel := by omega
      obtain ⟨hv, hne, hall⟩ := ih (n / 10) hlt
      rw [toDigitsCore_append]
      refine ⟨?_, by simp, ?_⟩
      · rw [digitsValue_append_singleton, hv, hd.2.2.2.2]
        omega
      · intro c hc
        rcases List.mem_append.mp hc with hc | hc
        · exact hall c hc
        · simp only [List.mem_singleton] at hc
          subst hc
          exact ⟨hd.1, hd.2.1, hd.2.2.1, hd.2.2.2.1⟩

theorem toString_data (n : Nat) : (toString n).data = Nat.toDigits 10 n := rfl

theorem toDigits_spec (n : Nat) :
    digitsValue (Nat.toDigits 10 n) = n ∧ Nat.toDigits 10 n ≠ [] ∧
    ∀ c ∈ Nat.toDigits 10 n, isPlainDigit c :=
  toDigitsCore_spec (n + 1) n (Nat.lt_succ_self n)

theorem dropWhile_of_head {α : Type} (p : α → Bool) (l : List α)
    (h : ∀ a, l.head? = some a → p a = false) : l.dropWhile p = l := by
  cases l with
  | nil => rfl
  | cons a as => simp [List.dropWhile, h a rfl]

theorem takeWhile_of_all {α : Type} (p : α → Bool) (l : List α)
    (h : ∀ a ∈ l, p a = true) : l.takeWhile p = l := by
  induction l with
  | nil => rfl
  | cons a as ih =>
    simp [List.takeWhile, h a (List.mem_cons_self _ _),
      ih (fun b hb => h b (List.mem_cons_of_mem _ hb))]

theorem skipWhiteSpace_toString (n : Nat) : skipWhiteSpace (toString n) = Nat.toDigits 10 n := by
  obtain ⟨_, _, hall⟩ := toDigits_spec n
  exact dropWhile_of_head _ _ (fun a ha => (hall a (List.mem_of_mem_head? ha)).2.1)

theorem afterSign_toDigits (n : Nat) : afterSign (Nat.toDigits 10 n) = Nat.toDigits 10 n := by
  obtain ⟨_, _, hall⟩ := toDigits_spec n
  have hminus : ((Nat.toDigits 10 n).head? == some '-') = false := by
    cases hh : (Nat.toDigits 10 n).head? with
    | none => rfl
    | some a =>
      have := (hall a (List.mem_of_mem_head? hh)).2.2.1
      simpa using this
  have hplus : ((Nat.toDigits 10 n).head? == some '+') = false := by
    cases hh : (Nat.toDigits 10 n).head? with
    | none => rfl
    | some a =>
      have := (hall a (List.mem_of_mem_head? hh)).2.2.2
      simpa using this
  simp only [afterSign, hminus, hplus, Bool.or_self, Bool.false_eq_true, if_false]

theorem takeWhile_toDigits (n : Nat) :
    (Nat.toDigits 10 n).takeWhile Char.isDigit = Nat.toDigits 10 n :=
  takeWhile_of_all _ _ (fun a ha => ((toDigits_spec n).2.2 a ha).1)

theorem isEmpty_toDigits (n : Nat) : (Nat.toDigits 10 n).isEmpty = false := by
  cases hh : Nat.toDigits 10 n with
  | nil => exact absurd hh (toDigits_spec n).2.1
  | cons a as => rfl

theorem toDouble_of_lt (n : Nat) (h : n < 2 ^ 53) : toDouble n = some n := by
  unfold toDouble
  rw [if_pos h]

/-- The decimal numeral of a natural number below `2 ^ 53` parses to that
number. -/
theorem parseInt_toString (n : Nat) (h : n < 2 ^ 53) :
    parseInt (toString n) = .finite (n : Int) := by
  have hminus : ((Nat.toDigits 10 n).head? == some '-') = false := by
    cases hh : (Nat.toDigits 10 n).head? with
    | none => rfl
    | some a =>
      have := ((toDigits_spec n).2.2 a (List.mem_of_mem_head? hh)).2.2.1
      simpa using this
  simp only [parseInt, skipWhiteSpace_toString, afterSign_toDigits, takeWhile_toDigits,
    isEmpty_toDigits, (toDigits_spec n).1, hminus, Bool.false_eq_true, if_false,
    toDouble_of_lt n h]
  by_cases h0 : n = 0
  · simp [h0]
  · simp [h0]

/-- The decimal numeral of a number from 1 to `2 ^ 53 - 1` after a minus sign
parses to the negated number. -/
theorem parseInt_minus_toString (n : Nat) (h1 : 1 ≤ n) (h : n < 2 ^ 53) :
    parseInt ("-" ++ toString n) = .finite (-(n : Int)) := by
  have hskip : skipWhiteSpace ("-" ++ toString n) = '-' :: Nat.toDigits 10 n := by
    have hdata : ("-" ++ toString n).data = '-' :: Nat.toDigits 10 n := rfl
    have hws : jsIsWhiteSpace '-' = false := by decide
    simp only [skipWhiteSpace, hdata, List.dropWhile, hws]
    rfl
  have hafter : afterSign ('-' :: Nat.toDigits 10 n) = Nat.toDigits 10 n := by
    simp [afterSign]
  have h0 : n ≠ 0 := by omega
  simp only [parseInt, hskip, hafter, takeWhile_toDigits, isEmpty_toDigits,
    (toDigits_spec n).1, List.head?, beq_self_eq_true, Bool.false_eq_true, if_false, if_true,
    toDouble_of_lt n h]
  simp [h0]

/-- Exactly the texts without a digit after the white space and the sign parse
to `NaN`. -/
theorem parseInt_nan_iff (s : String) :
    parseInt s = .nan ↔
      ∀ c, (afterSign (skipWhiteSpace s)).head? = some c → c.isDigit = false := by
  have hhead : ((afterSign (skipWhiteSpace s)).takeWhile Char.isDigit).isEmpty = true ↔
      ∀ c, (afterSign (skipWhiteSpace s)).head? = some c → c.isDigit = false := by
    cases afterSign (skipWhiteSpace s) with
    | nil => simp
    | cons a as =>
      by_cases ha : a.isDigit = true
      · simp [List.takeWhile, ha]
      · simp [List.takeWhile, ha]
  rw [← hhead]
  unfold parseInt
  by_cases he : ((afterSign (skipWhiteSpace s)).takeWhile Char.isDigit).isEmpty = true
  · simp [he]
  · simp only [he, Bool.false_eq_true, if_false, iff_false]
    intro h
    split_ifs at h <;> (try split at h) <;> cases h

set_option exponentiation.threshold 2048 in
set_option maxRecDepth 100000 in
/-- A numeral above `2 ^ 53` parses to the nearest double. -/
theorem parseInt_rounds : parseInt "9007199254740993" = .finite 9007199254740992 := by
  decide

/-- The handler hands `options.page` and `options.limit` to the paginator. -/
theorem getAllVideos_forwards (env : Env) (db : Db) (req : ListReq) (results : List VideoView)
    (hagg : aggregation env db (getAllVideos.match req) (getAllVideos.options req) =
      some results) :
    (∀ other, aggregatePaginate env results (getAllVideos.options req).page
        (getAllVideos.options req).limit = .inl other →
      getAllVideos env db req = ⟨other, db, []⟩) ∧
    (∀ videos, aggregatePaginate env results (getAllVideos.options req).page
        (getAllVideos.options req).limit = .inr videos →
      getAllVideos env db req =
        ⟨.json 200 (.page videos) "Videos fetched successfully", db, []⟩) := by
  constructor
  · intro other h
    simp only [getAllVideos, hagg, h]
  · intro videos h
    simp only [getAllVideos, hagg, h]

/-- A page or a page size that is not an integer of at least 1 goes to the
paginator unchanged. -/
theorem aggregatePaginate_other (env : Env) (results : List VideoView) (page limit : JSNumber)
    (h : ¬ ∃ p l : Int, page = .finite p ∧ limit = .finite l ∧ 1 ≤ p ∧ 1 ≤ l) :
    aggregatePaginate env results page limit = .inl (env.paginateOther results page limit) := by
  unfold aggregatePaginate
  split
  · rename_i p l
    split_ifs with hc
    · exact absurd ⟨p, l, rfl, rfl, hc.1, hc.2⟩ h
    · rfl
  · rfl

/-- C6 (amended): `getAllVideos` hands to the paginator the page and the page
size of its `options`, which are 1 and 10 when the parameter is absent and
`parseInt(value, 10)` of a supplied value, with no clamping: whenever they
are not both integers of at least 1 the paginator receives them as they are.
The decimal numeral of `n < 2 ^ 53` gives `n` (so `0` gives 0), the numeral
of `1 ≤ n < 2 ^ 53` after a minus sign gives `-n`, a larger numeral is
rounded to a double, and a text with no digit after leading white space and
an optional sign (the empty text among them) gives `NaN`. -/
theorem paginator_receives_parseInt (env : Env) (db : Db) (req : ListReq)
    (results : List VideoView)
    (hagg : aggregation env db (getAllVideos.match req) (getAllVideos.options req) =
      some results) :
    (∀ other, aggregatePaginate env results (getAllVideos.options req).page
        (getAllVideos.options req).limit = .inl other →
      getAllVideos env db req = ⟨other, db, []⟩) ∧
    (∀ videos, aggregatePaginate env results (getAllVideos.options req).page
        (getAllVideos.options req).limit = .inr videos →
      getAllVideos env db req =
        ⟨.json 200 (.page videos) "Videos fetched successfully", db, []⟩) ∧
    ((¬ ∃ p l : Int, (getAllVideos.options req).page = .finite p ∧
        (getAllVideos.options req).limit = .finite l ∧ 1 ≤ p ∧ 1 ≤ l) →
      getAllVideos env db req =
        ⟨env.paginateOther results (getAllVideos.options req).page
          (getAllVideos.options req).limit, db, []⟩) ∧
    (req.page = none → (getAllVideos.options req).page = .finite 1) ∧
    (req.limit = none → (getAllVideos.options req).limit = .finite 10) ∧
    (∀ s, req.page = some s → (getAllVideos.options req).page = parseInt s) ∧
    (∀ s, req.limit = some s → (getAllVideos.options req).limit = parseInt s) ∧
    (∀ n : Nat, n < 2 ^ 53 → parseInt (toString n) = .finite (n : Int)) ∧
    (∀ n : Nat, 1 ≤ n → n < 2 ^ 53 → parseInt ("-" ++ toString n) = .finite (-(n : Int))) ∧
    parseInt "9007199254740993" = .finite 9007199254740992 ∧
    (∀ s : String, parseInt s = .nan ↔
      ∀ c, (afterSign (skipWhiteSpace s)).head? = some c → c.isDigit = false) := by
  obtain ⟨hl, hr⟩ := getAllVideos_forwards env db req results hagg
  refine ⟨hl, hr, ?_, ?_, ?_, ?_, ?_, parseInt_toString, parseInt_minus_toString,
    parseInt_rounds, parseInt_nan_iff⟩
  · intro h
    exact hl _ (aggregatePaginate_other env results _ _ h)
  · intro h
    simp [getAllVideos.options, h]
  · intro h
    simp [getAllVideos.options, h]
  · intro s h
    simp [getAllVideos.options, h]
  · intro s h
    simp [getAllVideos.options, h]

/-- Witness for `paginator_receives_parseInt`: `page=0` and `limit=-5` on the
sample store reach the paginator as 0 and -5. -/
theorem paginator_receives_parseInt_witness :
    getAllVideos sampleEnv sampleDb ⟨some "0", some "-5", none, none, none, none⟩ =
      ⟨sampleEnv.paginateOther (joinOwner sampleDb.users sampleVideo) (.finite 0) (.finite (-5)),
        sampleDb, []⟩ :=
  (paginator_receives_parseInt sampleEnv sampleDb ⟨some "0", some "-5", none, none, none, none⟩
    (joinOwner sampleDb.users sampleVideo) (by decide)).2.2.1 (by
      rintro ⟨p, l, hp, _, h1, _⟩
      have h0 : (getAllVideos.options ⟨some "0", some "-5", none, none, none, none⟩).page =
          .finite 0 := by decide
      rw [h0] at hp
      cases hp
      omega)

/-- C6 (counterexample): with `page=0` and `limit=-5` the options hold 0 and -5
and the paginator receives them, whatever the store; with `page=abc` and an
empty `limit` the options hold `NaN` for both: the values passed are not
always integers that are at least 1. -/
theorem options_not_always_positive :
    (getAllVideos.options ⟨some "0", some "-5", none, none, none, none⟩).page = .finite 0 ∧
    (getAllVideos.options ⟨some "0", some "-5", none, none, none, none⟩).limit = .finite (-5) ∧
    (getAllVideos.options ⟨some "abc", some "", none, none, none, none⟩).page = .nan ∧
    (getAllVideos.options ⟨some "abc", some "", none, none, none, none⟩).limit = .nan ∧
    (∀ (env : Env) (db : Db) (results : List VideoView),
      aggregation env db (getAllVideos.match ⟨some "0", some "-5", none, none, none, none⟩)
        (getAllVideos.options ⟨some "0", some "-5", none, none, none, none⟩) = some results →
      getAllVideos env db ⟨some "0", some "-5", none, none, none, none⟩ =
        ⟨env.paginateOther results (.finite 0) (.finite (-5)), db, []⟩) ∧
    ¬ ∀ req : ListReq, ∃ page limit : Int,
      (getAllVideos.options req).page = .finite page ∧
      (getAllVideos.options req).limit = .finite limit ∧ 1 ≤ page ∧ 1 ≤ limit := by
  have h0 : (getAllVideos.options ⟨some "0", some "-5", none, none, none, none⟩).page =
      .finite 0 := by decide
  have h5 : (getAllVideos.options ⟨some "0", some "-5", none, none, none, none⟩).limit =
      .finite (-5) := by decide
  refine ⟨h0, h5, by decide, by decide, ?_, ?_⟩
  · intro env db results hagg
    have hrun := (getAllVideos_forwards env db _ results hagg).1 _
      (aggregatePaginate_other env results _ _ (by
        rintro ⟨p, l, hp, _, h1, _⟩
        rw [h0] at hp
        cases hp
        omega))
    rw [h0, h5] at hrun
    exact hrun
  · intro h
    obtain ⟨page, limit, hpage, _, hle, _⟩ := h ⟨some "0", some "-5", none, none, none, none⟩
    rw [h0] at hpage
    cases hpage
    omega

/-! ## Pagination of the listing (C4) -/

theorem flatMap_pages {α : Type} (rs : List α) (l n : Nat) :
    (List.range n).flatMap (fun k => (rs.drop (k * l)).take l) = rs.take (n * l) := by
  induction n with
  | zero => simp
  | succ n ih =>
    rw [List.range_succ, List.flatMap_append, ih, Nat.succ_mul, List.take_add]
    simp

theorem filter_owner_length_le_one (users : List User) (h : (users.map (·._id)).Nodup)
    (o : String) : (users.filter (fun u => u._id == o)).length ≤ 1 := by
  induction users with
  | nil => simp
  | cons u us ih =>
    rw [List.map_cons, List.nodup_cons] at h
    by_cases hu : u._id = o
    · have hnone : us.filter (fun w => w._id == o) = [] := by
        rw [List.filter_eq_nil_iff]
        intro w hw hwo
        have hwo' : w._id = o := by simpa using hwo
        exact h.1 (List.mem_map.mpr ⟨w, hw, by rw [hwo', hu]⟩)
      have hu' : (u._id == o) = true := by simpa using hu
      rw [List.filter_cons, hu', hnone]
      simp
    · have hu' : (u._id == o) = false := by simpa using hu
      rw [List.filter_cons, hu']
      exact ih h.2

theorem joined_ids_sublist (users : List User) (h : (users.map (·._id)).Nodup)
    (vs : List Video) :
    ((vs.flatMap (joinOwner users)).map (·._id)).Sublist (vs.map (·._id)) := by
  induction vs with
  | nil => simp
  | cons v vs ih =>
    have hlen := filter_owner_length_le_one users h v.owner
    have hhead : ((joinOwner users v).map (·._id)).Sublist [v._id] := by
      unfold joinOwner
      cases hf : users.filter (fun u => u._id == v.owner) with
      | nil => simp
      | cons u us =>
        cases us with
        | nil => simp [projectView]
        | cons w ws =>
          rw [hf] at hlen
          simp at hlen
    rw [List.flatMap_cons, List.map_append, List.map_cons]
    exact List.Sublist.append hhead ih

theorem getD_false_eq_true (o : Option Bool) : o.getD false = true ↔ o = some true := by
  cases o with
  | none => simp
  | some b => simp

/-- The run of `getAllVideos` on a page and a page size that are at least 1. -/
theorem getAllVideos_run (env : Env) (db : Db) (req : ListReq) (p l : Nat)
    (results : List VideoView) (hp : 1 ≤ p) (hl : 1 ≤ l)
    (hpage : (getAllVideos.options req).page = .finite (p : Int))
    (hlimit : (getAllVideos.options req).limit = .finite (l : Int))
    (hagg : aggregation env db (getAllVideos.match req) (getAllVideos.options req) =
      some results) :
    getAllVideos env db req =
      ⟨.json 200 (.page ⟨(results.drop ((p - 1) * l)).take l, results.length, l, p⟩)
        "Videos fetched successfully", db, []⟩ := by
  have hcond : (1 : Int) ≤ (p : Int) ∧ (1 : Int) ≤ (l : Int) := by
    constructor <;> exact_mod_cast (by assumption)
  simp only [getAllVideos, hagg, aggregatePaginate, hpage, hlimit, hcond, and_self, if_true,
    Int.toNat_ofNat]

/-- C4: for a listing request whose page `p` and page size `l` are at least 1
and whose aggregation runs, over a store with distinct ids, `getAllVideos`
answers the results from position `(p - 1) × l` on, `l` of them at most
(exactly `min l (total - (p - 1) × l)`, so 5 for page 2 of size 5 over 12
results), with the total counted before pagination; the results of the
aggregation are distinct, and are the views of the stored videos that
satisfy the filter, joined to their owner; and the pages `1, 2, …, n`
laid end to end are the first `n × l` results, hence all `total` of them once
`n × l` reaches the total. -/
theorem listing_pages_partition (env : Env) (db : Db) (req : ListReq) (p l : Nat)
    (results : List VideoView)
    (hsort : ∀ field dir vs, (env.sortStage field dir vs).Perm vs)
    (hvideos : (db.videos.map (·._id)).Nodup) (husers : (db.users.map (·._id)).Nodup)
    (hp : 1 ≤ p) (hl : 1 ≤ l)
    (hpage : (getAllVideos.options req).page = .finite (p : Int))
    (hlimit : (getAllVideos.options req).limit = .finite (l : Int))
    (hagg : aggregation env db (getAllVideos.match req) (getAllVideos.options req) =
      some results) :
    getAllVideos env db req =
      ⟨.json 200 (.page ⟨(results.drop ((p - 1) * l)).take l, results.length, l, p⟩)
        "Videos fetched successfully", db, []⟩ ∧
    (getAllVideos env db req).docs.length ≤ l ∧
    (getAllVideos env db req).docs.length = min l (results.length - (p - 1) * l) ∧
    (results.length = 12 → p = 2 → l = 5 → (getAllVideos env db req).docs.length = 5) ∧
    results.Nodup ∧ (results.map (·._id)).Nodup ∧
    (∀ w, w ∈ results ↔ ∃ v ∈ db.videos, ∃ u ∈ db.users,
      (getAllVideos.match req).matches env v = some true ∧ u._id = v.owner ∧
        w = projectView v u) ∧
    (∀ (n : Nat) (pages : Nat → String),
      (∀ k, k < n → parseInt (pages k) = .finite ((k + 1 : Nat) : Int)) →
      (List.range n).flatMap
          (fun k => (getAllVideos env db { req with page := some (pages k) }).docs) =
        results.take (n * l) ∧
      (results.length ≤ n * l →
        (List.range n).flatMap
          (fun k => (getAllVideos env db { req with page := some (pages k) }).docs) =
        results ∧
        ((List.range n).flatMap
          (fun k => (getAllVideos env db { req with page := some (pages k) }).docs)).length =
        results.length)) := by
  have hrun := getAllVideos_run env db req p l results hp hl hpage hlimit hagg
  have hdocs : (getAllVideos env db req).docs = (results.drop ((p - 1) * l)).take l := by
    rw [hrun]
    rfl
  -- the aggregation, unfolded
  obtain ⟨matched, hmatched, hresults⟩ : ∃ matched,
      matchStage env (getAllVideos.match req) db.videos = some matched ∧
      results = (env.sortStage (getAllVideos.options req).sortField
        (getAllVideos.options req).sortDir matched).flatMap (joinOwner db.users) := by
    unfold aggregation at hagg
    cases hm : matchStage env (getAllVideos.match req) db.videos with
    | none => simp [hm] at hagg
    | some matched =>
      simp only [hm, Option.some.injEq] at hagg
      exact ⟨matched, rfl, hagg.symm⟩
  have hfilter : matched = db.videos.filter
      (fun v => ((getAllVideos.match req).matches env v).getD false) := by
    unfold matchStage at hmatched
    split at hmatched
    · exact (Option.some.inj hmatched).symm
    · split at hmatched
      · cases hmatched
      · exact (Option.some.inj hmatched).symm
  have hperm := hsort (getAllVideos.options req).sortField (getAllVideos.options req).sortDir
    matched
  have hmatchedNodup : (matched.map (·._id)).Nodup := by
    rw [hfilter]
    exact (List.filter_sublist _).map _ |>.nodup hvideos
  have hsortedNodup : ((env.sortStage (getAllVideos.options req).sortField
      (getAllVideos.options req).sortDir matched).map (·._id)).Nodup :=
    (hperm.map _).nodup_iff.mpr hmatchedNodup
  have hidsNodup : (results.map (·._id)).Nodup := by
    rw [hresults]
    exact (joined_ids_sublist db.users husers _).nodup hsortedNodup
  have hpages : ∀ (n : Nat) (pages : Nat → String),
      (∀ k, k < n → parseInt (pages k) = .finite ((k + 1 : Nat) : Int)) →
      (List.range n).flatMap
          (fun k => (getAllVideos env db { req with page := some (pages k) }).docs) =
        results.take (n * l) := by
    intro n pages hparse
    rw [← flatMap_pages results l n]
    apply List.flatMap_congr
    intro k hk
    have hk' : k < n := List.mem_range.mp hk
    have hrunk := getAllVideos_run env db { req with page := some (pages k) } (k + 1) l results
      (Nat.succ_le_succ (Nat.zero_le k)) hl (hparse k hk') hlimit hagg
    rw [hrunk]
    simp [Run.docs]
  refine ⟨hrun, ?_, ?_, ?_, ?_, hidsNodup, ?_, ?_⟩
  · rw [hdocs, List.length_take]
    exact Nat.min_le_left _ _
  · rw [hdocs, List.length_take, List.length_drop]
  · intro h12 h2 h5
    rw [hdocs, List.length_take, List.length_drop, h12, h2, h5]
    decide
  · exact List.Nodup.of_map _ hidsNodup
  · intro w
    rw [hresults, List.mem_flatMap]
    constructor
    · rintro ⟨v, hv, hw⟩
      have hvm : v ∈ matched := hperm.mem_iff.mp hv
      rw [hfilter, List.mem_filter] at hvm
      unfold joinOwner at hw
      obtain ⟨u, hu, rfl⟩ := List.mem_map.mp hw
      rw [List.mem_filter] at hu
      exact ⟨v, hvm.1, u, hu.1, (getD_false_eq_true _).mp hvm.2, by simpa using hu.2, rfl⟩
    · rintro ⟨v, hv, u, hu, hm, huo, rfl⟩
      refine ⟨v, hperm.mem_iff.mpr ?_, ?_⟩
      · rw [hfilter, List.mem_filter]
        exact ⟨hv, (getD_false_eq_true _).mpr hm⟩
      · unfold joinOwner
        exact List.mem_map.mpr ⟨u, List.mem_filter.mpr ⟨hu, by simpa using huo⟩, rfl⟩
  · intro n pages hparse
    refine ⟨hpages n pages hparse, ?_⟩
    intro hall
    rw [hpages n pages hparse, List.take_of_length_le hall]
    exact ⟨rfl, rfl⟩

theorem sampleEnv_sort_perm (field : String) (dir : Int) (vs : List Video) :
    (sampleEnv.sortStage field dir vs).Perm vs := by
  show (if field == "duration" then
      if dir == 1 then vs.insertionSort (fun a b => a.duration ≤ b.duration)
      else vs.insertionSort (fun a b => b.duration ≤ a.duration)
    else vs).Perm vs
  split_ifs
  · exact List.perm_insertionSort _ _
  · exact List.perm_insertionSort _ _
  · exact List.Perm.refl _

/-- Witness for `listing_pages_partition`: the query `cat`, page 2 of size 5,
against the store with twelve videos about cats and one about the ocean:
five results, total 12, and pages 1 to 3 laid end to end are the twelve. -/
theorem listing_pages_partition_witness :
    catResults.length = 12 ∧
    getAllVideos sampleEnv catDb ⟨some "2", some "5", some "cat", none, none, none⟩ =
      ⟨.json 200 (.page ⟨(catResults.drop ((2 - 1) * 5)).take 5, catResults.length, 5, 2⟩)
        "Videos fetched successfully", catDb, []⟩ ∧
    (getAllVideos sampleEnv catDb ⟨some "2", some "5", some "cat", none, none, none⟩).docs.length =
      5 ∧
    (List.range 3).flatMap
        (fun k => (getAllVideos sampleEnv catDb
          { (⟨some "2", some "5", some "cat", none, none, none⟩ : ListReq) with
            page := some (toString (k + 1)) }).docs) =
      catResults :=
  have h := listing_pages_partition sampleEnv catDb
    ⟨some "2", some "5", some "cat", none, none, none⟩ 2 5 catResults sampleEnv_sort_perm
    (by decide) (by decide) (by decide) (by decide) (by decide) (by decide) (by decide)
  ⟨by decide, h.1, h.2.2.2.1 (by decide) rfl rfl,
    ((h.2.2.2.2.2.2.2 3 (fun k => toString (k + 1))
      (fun k hk => parseInt_toString (k + 1)
        (Nat.lt_of_lt_of_le (Nat.succ_lt_succ hk) (by decide)))).2 (by decide)).1⟩

end YoutubeClone
